import Mathlib

/-!
Verification of the schema resolution and marshal/unmarshal orchestration
engine of `src/marshmallow/schema.py` (the `SchemaMeta` metaclass,
`SchemaOpts`, and `BaseSchema` with its dump/load pipelines), shallowly
embedded in Lean.

Python dictionaries are embedded as ordered association lists
(`List (String × A)`) with the usual CPython semantics: inserting an
existing key updates its value in place (keeping its position), inserting
a new key appends it, and `dict.update` folds such insertions over the
right-hand dictionary.
-/

/-- Python `d[k] = v`: update the first (only) occurrence of the key in
place, otherwise append the new pair at the end. -/
def dictInsert {A : Type} : List (String × A) → String × A → List (String × A)
  | [], kv => [kv]
  | p :: rest, kv => if p.1 = kv.1 then (p.1, kv.2) :: rest else p :: dictInsert rest kv

/-- Python `dict(pairs)` / `OrderedDict(pairs)`: fold insertions over an
empty dictionary, so a later pair with the same key overwrites an earlier
one. -/
def dictOfPairs {A : Type} (ps : List (String × A)) : List (String × A) :=
  ps.foldl dictInsert []

/-- Python `d.update(e)`: insert every pair of `e` into `d` in order. -/
def dictUpdate {A : Type} (d e : List (String × A)) : List (String × A) :=
  e.foldl dictInsert d

/-- Python `a or b` on two optional results; also the value a key holds
after later pairs shadow earlier ones. -/
def optOr {A : Type} : Option A → Option A → Option A
  | some a, _ => some a
  | none, b => b

/-- The value the LAST pair of `ps` carrying key `k` holds, if any: the
value `k` maps to once `ps` is folded into a Python dictionary. -/
def lookupLast {A : Type} (k : String) (ps : List (String × A)) : Option A :=
  List.lookup k ps.reverse

/-- The key set of an embedded Python dictionary. -/
def keysOf {A : Type} (d : List (String × A)) : Finset String :=
  (d.map Prod.fst).toFinset

theorem optOr_none_left {A : Type} (b : Option A) : optOr none b = b := rfl

theorem optOr_some_left {A : Type} (a : A) (b : Option A) : optOr (some a) b = some a := rfl

theorem optOr_none_right {A : Type} (a : Option A) : optOr a none = a := by
  cases a <;> rfl

theorem optOr_assoc {A : Type} (a b c : Option A) :
    optOr (optOr a b) c = optOr a (optOr b c) := by
  cases a <;> rfl

theorem lookup_append {A : Type} (k : String) (l₁ l₂ : List (String × A)) :
    List.lookup k (l₁ ++ l₂) = optOr (List.lookup k l₁) (List.lookup k l₂) := by
  induction l₁ with
  | nil => rfl
  | cons p rest ih =>
    by_cases h : k = p.1
    · simp [List.lookup, h, optOr]
    · have hne : (k == p.1) = false := by simp [h]
      simp [List.lookup, hne, ih]

theorem lookup_dictInsert {A : Type} (d : List (String × A)) (kv : String × A) (k : String) :
    List.lookup k (dictInsert d kv) = if k = kv.1 then some kv.2 else List.lookup k d := by
  induction d with
  | nil =>
    by_cases h : k = kv.1
    · simp [dictInsert, List.lookup, h]
    · have hb : (k == kv.1) = false := by simp [h]
      simp [dictInsert, List.lookup, hb, h]
  | cons p rest ih =>
    by_cases hp : p.1 = kv.1
    · by_cases h : k = kv.1
      · simp [dictInsert, hp, List.lookup, h]
      · have hb : (k == kv.1) = false := by simp [h]
        have hb2 : (k == p.1) = false := by simp [hp, h]
        simp [dictInsert, hp, List.lookup, hb, hb2, h]
    · by_cases h : k = p.1
      · have hk : ¬k = kv.1 := fun hc => hp (h ▸ hc)
        simp [dictInsert, hp, List.lookup, h, hk]
      · have hb2 : (k == p.1) = false := by simp [h]
        simp [dictInsert, hp, List.lookup, hb2, ih]

theorem lookup_foldl_dictInsert {A : Type} (ps : List (String × A)) :
    ∀ (d : List (String × A)) (k : String),
      List.lookup k (ps.foldl dictInsert d) = optOr (lookupLast k ps) (List.lookup k d) := by
  induction ps with
  | nil => intro d k; simp [lookupLast, List.lookup, optOr]
  | cons x ps ih =>
    intro d k
    have step : (x :: ps).foldl dictInsert d = ps.foldl dictInsert (dictInsert d x) := rfl
    rw [step, ih]
    have hrev : lookupLast k (x :: ps) = optOr (lookupLast k ps) (List.lookup k [x]) := by
      simp only [lookupLast, List.reverse_cons]
      exact lookup_append k ps.reverse [x]
    rw [hrev, optOr_assoc, lookup_dictInsert]
    by_cases h : k = x.1
    · simp [List.lookup, h, optOr]
    · have : (k == x.1) = false := by simp [h]
      simp [List.lookup, this, h, optOr]

theorem lookup_dictOfPairs {A : Type} (ps : List (String × A)) (k : String) :
    List.lookup k (dictOfPairs ps) = lookupLast k ps := by
  rw [dictOfPairs, lookup_foldl_dictInsert]
  simp [List.lookup, optOr_none_right]

theorem lookup_dictUpdate {A : Type} (d e : List (String × A)) (k : String) :
    List.lookup k (dictUpdate d e) = optOr (lookupLast k e) (List.lookup k d) :=
  lookup_foldl_dictInsert e d k

theorem keysOf_dictInsert {A : Type} (d : List (String × A)) (kv : String × A) :
    keysOf (dictInsert d kv) = insert kv.1 (keysOf d) := by
  induction d with
  | nil => simp [dictInsert, keysOf]
  | cons p rest ih =>
    by_cases hp : p.1 = kv.1
    · simp [dictInsert, hp, keysOf]
    · simp only [dictInsert, hp, if_false, keysOf, List.map_cons, List.toFinset_cons]
      rw [show ((dictInsert rest kv).map Prod.fst).toFinset = keysOf (dictInsert rest kv) from rfl,
        ih]
      exact Finset.Insert.comm _ _ _

theorem keysOf_foldl_dictInsert {A : Type} (ps : List (String × A)) :
    ∀ d : List (String × A), keysOf (ps.foldl dictInsert d) = keysOf d ∪ keysOf ps := by
  induction ps with
  | nil => intro d; simp [keysOf]
  | cons x ps ih =>
    intro d
    have step : (x :: ps).foldl dictInsert d = ps.foldl dictInsert (dictInsert d x) := rfl
    rw [step, ih, keysOf_dictInsert]
    have hx : keysOf (x :: ps) = insert x.1 (keysOf ps) := by simp [keysOf]
    rw [hx, Finset.insert_union, Finset.union_insert]

theorem keysOf_dictOfPairs {A : Type} (ps : List (String × A)) :
    keysOf (dictOfPairs ps) = keysOf ps := by
  rw [dictOfPairs, keysOf_foldl_dictInsert]
  simp [keysOf]

theorem keysOf_append {A : Type} (l₁ l₂ : List (String × A)) :
    keysOf (l₁ ++ l₂) = keysOf l₁ ∪ keysOf l₂ := by
  simp [keysOf]

/-! ## Field contracts and the static type table -/

/-- The field classes of `marshmallow.fields` that appear in
`BaseSchema.TYPE_MAPPING`, plus `fields.Field` itself — the pass-through
("raw") base contract that implicit resolution falls back to. -/
inductive FieldKind where
  | stringF
  | dateTimeF
  | floatF
  | booleanF
  | rawF
  | integerF
  | uuidF
  | timeF
  | dateF
  | timeDeltaF
  | decimalF
  | fieldF
  deriving DecidableEq, Repr

/-- The Python runtime types that can be the type of a representative
object's attribute: the keys of `BaseSchema.TYPE_MAPPING` plus a catch-all
for every type with no entry in the table. -/
inductive PyType where
  | textT
  | binaryT
  | datetimeT
  | floatT
  | boolT
  | tupleT
  | listT
  | setT
  | intT
  | uuidT
  | timeT
  | dateT
  | timedeltaT
  | decimalT
  | otherT
  deriving DecidableEq, Repr

/-- `BaseSchema.TYPE_MAPPING` (schema.py lines 263-278): the static
type-to-contract table. `none` models a type that is not a key of the
dictionary (usage goes through `.get(t, fields.Field)`, see
`resolveImplicitField`). -/
def TYPE_MAPPING : PyType → Option FieldKind
  | .textT => some .stringF
  | .binaryT => some .stringF
  | .datetimeT => some .dateTimeF
  | .floatT => some .floatF
  | .boolT => some .booleanF
  | .tupleT => some .rawF
  | .listT => some .rawF
  | .setT => some .rawF
  | .intT => some .integerF
  | .uuidT => some .uuidF
  | .timeT => some .timeF
  | .dateT => some .dateF
  | .timedeltaT => some .timeDeltaF
  | .decimalT => some .decimalF
  | .otherT => none

/-! ## Class Meta options (`SchemaOpts`) and the metaclass -/

/-- A value a `class Meta` attribute can hold, as far as
`SchemaOpts.__init__` distinguishes: absent, a list/tuple of names, or a
value of any other type (which fails the isinstance check). -/
inductive PyOpt where
  | absentO
  | seqO (xs : List String)
  | otherO
  deriving DecidableEq, Repr

/-- The `class Meta` attributes consulted by `SchemaOpts.__init__` that the
claims depend on (`includeOpt` embeds the `include` option, a dictionary of
extra field declarations; `include` is a reserved word in Lean). -/
structure MetaOpts where
  fields : PyOpt
  additional : PyOpt
  exclude : PyOpt
  strict : Bool
  ordered : Bool
  index_errors : Bool
  includeOpt : List (String × FieldKind)
  load_only : List String
  dump_only : List String
  deriving DecidableEq, Repr

/-- The resolved options object bound to a schema class. -/
structure SchemaOpts where
  fields : List String
  additional : List String
  exclude : List String
  strict : Bool
  ordered : Bool
  index_errors : Bool
  includeOpt : List (String × FieldKind)
  load_only : List String
  dump_only : List String
  deriving DecidableEq, Repr

/-- `SchemaOpts.__init__` (schema.py lines 180-206): read and validate the
class Meta options. `getattr(meta, name, ())` yields the empty tuple when
the attribute is absent; a non-sequence value fails the isinstance check
with `ValueError`; setting both `fields` and `additional` to truthy
(non-empty) values raises `ValueError` before any further option is read. -/
def SchemaOpts.init (meta : MetaOpts) : Except String SchemaOpts := do
  let fieldsV ← match meta.fields with
    | .absentO => Except.ok []
    | .seqO xs => Except.ok xs
    | .otherO => Except.error "`fields` option must be a list or tuple."
  let additionalV ← match meta.additional with
    | .absentO => Except.ok []
    | .seqO xs => Except.ok xs
    | .otherO => Except.error "`additional` option must be a list or tuple."
  if fieldsV ≠ [] ∧ additionalV ≠ [] then
    throw "Cannot set both `fields` and `additional` options for the same Schema."
  let excludeV ← match meta.exclude with
    | .absentO => Except.ok []
    | .seqO xs => Except.ok xs
    | .otherO => Except.error "`exclude` must be a list or tuple."
  pure { fields := fieldsV
         additional := additionalV
         exclude := excludeV
         strict := meta.strict
         ordered := meta.ordered
         index_errors := meta.index_errors
         includeOpt := meta.includeOpt
         load_only := meta.load_only
         dump_only := meta.dump_only }

/-- `_get_fields_by_mro` (schema.py lines 54-74): concatenate the field
declarations contributed by the ancestor classes. `mro[:0:-1]` walks the
method resolution order backwards and drops the class itself, so the
most-base class contributes first. `ancestors` lists each ancestor's
resolved declarations in method-resolution order (most-derived first), as
`inspect.getmro` returns them. -/
def get_fields_by_mro (ancestors : List (List (String × FieldKind))) :
    List (String × FieldKind) :=
  ancestors.reverse.foldl (fun acc l => acc ++ l) []

/-- `SchemaMeta.get_declared_fields` (schema.py lines 120-133):
`dict_cls(inherited_fields + cls_fields)` — a Python dictionary built from
the inherited pairs followed by the class's own pairs, so a declaration on
the class overwrites an inherited declaration with the same name. -/
def get_declared_fields (inherited cls_fields : List (String × FieldKind)) :
    List (String × FieldKind) :=
  dictOfPairs (inherited ++ cls_fields)

/-- `SchemaMeta.__new__` (schema.py lines 84-118): resolve the class Meta
options — any `SchemaOpts` configuration error is raised here, at
class-definition time, before a schema instance (and hence any dump or
load call) can exist — then append the `include` option's fields after the
class's own fields and bind `_declared_fields`. -/
def schemaMetaNew (meta : MetaOpts) (ancestors : List (List (String × FieldKind)))
    (cls_fields : List (String × FieldKind)) :
    Except String (SchemaOpts × List (String × FieldKind)) := do
  let opts ← SchemaOpts.init meta
  pure (opts, get_declared_fields (get_fields_by_mro ancestors) (cls_fields ++ opts.includeOpt))

/-! ## Schema instances -/

/-- A Python value for the load pipeline's missing-fields argument (called
`partial` in the source; that is a reserved word in Lean, so `part` here):
`None`, a boolean, or a set/collection of field names. -/
inductive PartArg where
  | noneV
  | boolV (b : Bool)
  | setV (s : List String)
  deriving DecidableEq, Repr

/-- Python `bool(x)` on a `PartArg` value: a set is truthy iff non-empty.
(`bool(None)` is `False`.) -/
def pyBool : PartArg → Bool
  | .noneV => false
  | .boolV b => b
  | .setV s => !s.isEmpty

/-- The per-instance state set by `BaseSchema.__init__` (schema.py lines
323-353) that the verified claims depend on. -/
structure SchemaInstance where
  only : List String
  exclude : List String
  strict : Bool
  many : Bool
  ordered : Bool
  load_only : List String
  dump_only : List String
  part : PartArg
  deriving DecidableEq, Repr

/-- `BaseSchema.__init__` (schema.py lines 323-353):
`self.strict = strict or self.opts.strict` — Python `or` on booleans is
disjunction, so the class-level option cannot be switched off per
instance; `self.load_only = set(load_only) or set(self.opts.load_only)` —
`or` keeps the first operand when it is truthy (non-empty). -/
def baseSchemaInit (opts : SchemaOpts) (only exclude : List String)
    (strict many : Bool) (load_only dump_only : List String) (part : PartArg) :
    SchemaInstance :=
  { only := only
    exclude := exclude
    strict := strict || opts.strict
    many := many
    ordered := opts.ordered
    load_only := if load_only ≠ [] then load_only else opts.load_only
    dump_only := if dump_only ≠ [] then dump_only else opts.dump_only
    part := part }

/-! ## Field set selection (`_update_fields` / `__filter_fields`) -/

/-- Python `set(xs)` / `OrderedSet(xs)`: deduplicate, keeping the first
occurrence (the order of a plain `set` is irrelevant to every use below,
which only subtracts or intersects by membership). -/
def orderedSet (xs : List String) : List String :=
  xs.foldl (fun acc x => if acc.contains x then acc else acc ++ [x]) []

/-- Set intersection `a & b`, keeping the left operand's order. -/
def osInter (a b : List String) : List String :=
  a.filter (fun x => b.contains x)

/-- Set union `a | b`, left operand's elements first. -/
def osUnion (a b : List String) : List String :=
  a ++ b.filter (fun x => !a.contains x)

/-- Set difference `a - b`. -/
def osDiff (a b : List String) : List String :=
  a.filter (fun x => !b.contains x)

/-- The field-name selection of `BaseSchema._update_fields` (schema.py
lines 640-661): pick the base name set by the only/fields/additional
priority, then subtract the union of the class-level and the
instance-level exclude sets (each `if` tests Python truthiness, i.e.
non-emptiness). -/
def update_field_names (inst : SchemaInstance) (opts : SchemaOpts)
    (declared_keys : List String) : List String :=
  let field_names :=
    if inst.only ≠ [] then
      if opts.fields ≠ [] then osInter (orderedSet opts.fields) (orderedSet inst.only)
      else orderedSet inst.only
    else if opts.fields ≠ [] then orderedSet opts.fields
    else if opts.additional ≠ [] then
      osUnion (orderedSet declared_keys) (orderedSet opts.additional)
    else orderedSet declared_keys
  let excludes := osUnion (orderedSet opts.exclude) (orderedSet inst.exclude)
  if excludes ≠ [] then osDiff field_names excludes else field_names

/-- A Python object as `BaseSchema.__filter_fields` inspects it: its
truthiness, whether it is a `Mapping`, and the runtime type of each of its
attributes (for a mapping, of the value under each key). A key absent from
`attrs` raises `AttributeError`/`KeyError` on access. -/
structure PyObj where
  truthy : Bool
  isMapping : Bool
  attrs : List (String × PyType)
  deriving DecidableEq, Repr

/-- The `obj` argument of `__filter_fields`: Python `None`, a single
object, or a collection — modelled by its truthiness and its first item,
`none` when `obj[0]` / `next(iter(obj))` raises
`IndexError`/`StopIteration`. (A plain empty list is `coll false none`:
falsy, no first item.) -/
inductive ObjArg where
  | noneO
  | single (o : PyObj)
  | coll (truthy : Bool) (first : Option PyObj)
  deriving DecidableEq, Repr

/-- Python truthiness of the `obj` argument (`None` is falsy). -/
def objTruthy : ObjArg → Bool
  | .noneO => false
  | .single o => o.truthy
  | .coll t _ => t

/-- Accessing `obj[key]` (for a mapping) or `getattr(obj, key)`: the type
of the value, or `none` when the access raises `KeyError` /
`AttributeError`. A bare collection has no named attributes or keys. -/
def objLookup : ObjArg → String → Option PyType
  | .noneO, _ => none
  | .single o, k => List.lookup k o.attrs
  | .coll _ _, _ => none

/-- The implicit-field branch of `__filter_fields` (schema.py lines
722-738): with a truthy representative object, take the type of its
attribute/key — re-raising a lookup error that names the missing field
when the attribute does not exist — and map the type through
`TYPE_MAPPING.get(attribute_type, fields.Field)`; with a falsy or absent
object, default to `fields.Field()` directly. -/
def resolveImplicitField (obj : ObjArg) (key : String) : Except String FieldKind :=
  if objTruthy obj then
    match objLookup obj key with
    | some t => Except.ok ((TYPE_MAPPING t).getD .fieldF)
    | none => Except.error ("\"" ++ key ++ "\" is not a valid field for the object.")
  else Except.ok .fieldF

/-- One iteration of the `for key in field_names` loop of
`__filter_fields`: a declared field keeps its declared contract; any other
name goes through implicit resolution against the representative object. -/
def resolveField (declared : List (String × FieldKind)) (obj : ObjArg) (key : String) :
    Except String FieldKind :=
  match List.lookup key declared with
  | some f => Except.ok f
  | none => resolveImplicitField obj key

/-- The loop of `__filter_fields` over the selected names, building the
result dictionary; a raised lookup error propagates out of the loop. -/
def filterFieldsLoop (declared : List (String × FieldKind)) (obj : ObjArg) :
    List String → List (String × FieldKind) → Except String (List (String × FieldKind))
  | [], acc => Except.ok acc
  | k :: ks, acc =>
    match resolveField declared obj k with
    | Except.ok f => filterFieldsLoop declared obj ks (dictInsert acc (k, f))
    | Except.error e => Except.error e

/-- `BaseSchema.__filter_fields` (schema.py lines 698-739). With a truthy
`obj` and `many=True` the representative is the collection's first item;
when there is no first item (`IndexError`/`StopIteration`) the FULL
`self.declared_fields` dictionary is returned, bypassing the name
filtering; a truthy non-collection raises `TypeError` from the item
access. A falsy `obj` — `None`, but also the empty list — never enters the
representative extraction and reaches the loop unchanged. -/
def filter_fields (declared : List (String × FieldKind)) (field_names : List String)
    (obj : ObjArg) (many : Bool) : Except String (List (String × FieldKind)) :=
  if objTruthy obj && many then
    match obj with
    | .coll _ (some proto) => filterFieldsLoop declared (.single proto) field_names []
    | .coll _ none => Except.ok declared
    | _ => Except.error "TypeError: object is not subscriptable or iterable"
  else
    filterFieldsLoop declared obj field_names []

/-- `BaseSchema._update_fields` (schema.py lines 640-666): select the
field names, then resolve them against the object. (The binding side
effects of `__set_field_attrs` touch no state the claims depend on.) -/
def update_fields (inst : SchemaInstance) (opts : SchemaOpts)
    (declared : List (String × FieldKind)) (obj : ObjArg) (many : Bool) :
    Except String (List (String × FieldKind)) :=
  filter_fields declared (update_field_names inst opts (declared.map Prod.fst)) obj many

theorem mem_orderedSet (y : String) (xs : List String) : y ∈ orderedSet xs ↔ y ∈ xs := by
  have general : ∀ (l acc : List String),
      y ∈ l.foldl (fun acc x => if acc.contains x then acc else acc ++ [x]) acc ↔
        y ∈ acc ∨ y ∈ l := by
    intro l
    induction l with
    | nil => intro acc; simp
    | cons x l ih =>
      intro acc
      by_cases hx : x ∈ acc
      · have hc : acc.contains x = true := by simpa using hx
        rw [List.foldl_cons, if_pos hc, ih, List.mem_cons]
        constructor
        · rintro (h | h)
          · exact Or.inl h
          · exact Or.inr (Or.inr h)
        · rintro (h | h | h)
          · exact Or.inl h
          · exact Or.inl (h ▸ hx)
          · exact Or.inr h
      · have hc : ¬acc.contains x = true := by simpa using hx
        rw [List.foldl_cons, if_neg hc, ih, List.mem_append]
        simp [or_assoc]
  rw [orderedSet, general xs []]
  simp

theorem mem_osInter (y : String) (a b : List String) :
    y ∈ osInter a b ↔ y ∈ a ∧ y ∈ b := by
  simp [osInter]

theorem mem_osUnion (y : String) (a b : List String) :
    y ∈ osUnion a b ↔ y ∈ a ∨ y ∈ b := by
  simp only [osUnion, List.mem_append, List.mem_filter]
  by_cases h : y ∈ a
  · simp [h]
  · simp [h]

theorem mem_osDiff (y : String) (a b : List String) :
    y ∈ osDiff a b ↔ y ∈ a ∧ y ∉ b := by
  simp [osDiff]

/-! ## Hook processors -/

/-- `utils.if_none(value, default)`: keep a processor's result unless it
returned `None`. -/
def if_none {D : Type} (r : Option D) (d : D) : D := r.getD d

/-- `BaseSchema._invoke_processors` (schema.py lines 827-851) for one
(tag, pass_many) hook list: thread the data through each registered
processor in registration order. A processor may return `None`, which
keeps the previous data; the per-item mapping a non-batch processor
performs under `many=True` is folded into the processor function itself. -/
def invoke_processors {D : Type} (hooks : List (D → Option D)) (data : D) : D :=
  hooks.foldl (fun d h => if_none (h d) d) data

/-- `BaseSchema._invoke_dump_processors` (schema.py lines 741-749): on the
dump side — for `PRE_DUMP` and `POST_DUMP` alike — first the
`pass_many=False` (non-batch) hooks, then the `pass_many=True` (batch)
hooks; the source's comment says the batch post-dump processors "may do
things like add an envelope, so invoke those after invoking the
non-pass_many processors". -/
def invoke_dump_processors {D : Type} (nonbatch batch : List (D → Option D)) (data : D) : D :=
  invoke_processors batch (invoke_processors nonbatch data)

/-- `BaseSchema._invoke_load_processors` (schema.py lines 751-758): the
inverted order — batch hooks first, then non-batch hooks. -/
def invoke_load_processors {D : Type} (nonbatch batch : List (D → Option D)) (data : D) : D :=
  invoke_processors nonbatch (invoke_processors batch data)

/-- An instrumentation hook that appends its own name to the data,
recording the order in which hooks run. -/
def traceHook (name : String) : List String → Option (List String) :=
  fun l => some (l ++ [name])

theorem invoke_processors_trace (names : List String) :
    ∀ l : List String, invoke_processors (names.map traceHook) l = l ++ names := by
  induction names with
  | nil => intro l; simp [invoke_processors]
  | cons n names ih =>
    intro l
    have step : invoke_processors ((n :: names).map traceHook) l
        = invoke_processors (names.map traceHook) (l ++ [n]) := rfl
    rw [step, ih, List.append_assoc]
    rfl

/-! ## The error model and the load pipeline -/

/-- An aggregate validation-error map: field name (or batch index rendered
as a key) to the ordered list of messages recorded under it. -/
abbrev Errors := List (String × List String)

/-- The error dictionary one run of `BaseSchema._invoke_validators`
(schema.py lines 800-825) accumulates over the registered schema-level
validators of one `(VALIDATES_SCHEMA, pass_many)` group: each failing
validator call contributes its `err.messages` via `errors.update(...)`.
An outcome is `none` when the validator passed and `some messages` when it
raised `ValidationError(messages)`; the per-item loop under
`many and not pass_many` simply yields one outcome per item. -/
def validatorGroupErrors (outcomes : List (Option Errors)) : Errors :=
  outcomes.foldl (fun acc o => match o with | some m => dictUpdate acc m | none => acc) []

/-- `BaseSchema._invoke_validators` raises `ValidationError(errors)` iff
the group accumulated any error (schema.py lines 823-825), modelled as
`some errors`; otherwise it returns `None`. -/
def invoke_validators (outcomes : List (Option Errors)) : Option Errors :=
  if (validatorGroupErrors outcomes).isEmpty then none
  else some (validatorGroupErrors outcomes)

/-- One `try: self._invoke_validators(...) except ValidationError as err:
errors.update(err.messages)` block of `_do_load` (schema.py lines
613-620). -/
def updateWithValidators (errors : Errors) (outcomes : List (Option Errors)) : Errors :=
  match invoke_validators outcomes with
  | some m => dictUpdate errors m
  | none => errors

/-- The error aggregation of `BaseSchema._do_load` (schema.py lines
610-620): start from the unmarshal/field-validator error dictionary
(`errors = self._unmarshal.errors`), then `errors.update(err.messages)`
for the batch (`pass_many=True`) schema-validator group, then again for
the non-batch (`pass_many=False`) group. -/
def do_load_errors (unmarshalErrors : Errors)
    (batchOutcomes itemOutcomes : List (Option Errors)) : Errors :=
  updateWithValidators (updateWithValidators unmarshalErrors batchOutcomes) itemOutcomes

/-- The `ValidationError` that `_do_load` constructs when the aggregate
error map is non-empty (schema.py lines 625-630): it carries the error
map, the offending field names, the offending field contracts, and the
original input data. -/
structure ValidationExc (D : Type) where
  messages : Errors
  field_names : List String
  fieldObjs : List FieldKind
  dataV : D
  deriving DecidableEq, Repr

/-- The observable outcome of the tail of `BaseSchema._do_load`. -/
structure LoadFinish (D : Type) where
  /-- The `(error, data)` pair `self.handle_error` was invoked with, if it was. -/
  handled : Option (ValidationExc D × D)
  /-- The error raised in strict mode, if any. -/
  raised : Option (ValidationExc D)
  /-- Whether the `POST_LOAD` processors ran. -/
  post_load_ran : Bool
  /-- The returned `(result, errors)` pair; `none` when an error was raised. -/
  returned : Option (D × Errors)
  deriving DecidableEq, Repr

/-- The tail of `BaseSchema._do_load` (schema.py lines 621-638): with a
non-empty aggregate error map, build the `ValidationError`, invoke the
overridable `self.handle_error(exc, data)` with it and the original
input, and in strict mode raise it; the post-load processors are skipped
in every error case. With no errors, run the post-load processors iff
`postprocess` and return the `(result, errors)` pair. -/
def do_load_finish {D : Type} (strict postprocess : Bool) (errors : Errors)
    (error_field_names : List String) (error_fields : List FieldKind)
    (data result : D) (postLoad : D → D) : LoadFinish D :=
  if errors.isEmpty then
    if postprocess then
      { handled := none, raised := none, post_load_ran := true,
        returned := some (postLoad result, errors) }
    else
      { handled := none, raised := none, post_load_ran := false,
        returned := some (result, errors) }
  else
    let exc : ValidationExc D := ⟨errors, error_field_names, error_fields, data⟩
    if strict then
      { handled := some (exc, data), raised := some exc, post_load_ran := false,
        returned := none }
    else
      { handled := some (exc, data), raised := none, post_load_ran := false,
        returned := some (result, errors) }

/-- `BaseSchema._do_load` (schema.py lines 580-638) with its collaborator
outcomes abstracted: the unmarshaller and the field validators are
summarised by the error dictionary they stored, the two schema-validator
groups by their outcome lists; the error aggregation and the
strict/handle_error/post-load tail are the source's. -/
def do_load {D : Type} (inst : SchemaInstance) (postprocess : Bool)
    (unmarshalErrors : Errors) (error_field_names : List String)
    (error_fields : List FieldKind) (batchOutcomes itemOutcomes : List (Option Errors))
    (data result : D) (postLoad : D → D) : LoadFinish D :=
  do_load_finish inst.strict postprocess
    (do_load_errors unmarshalErrors batchOutcomes itemOutcomes)
    error_field_names error_fields data result postLoad

/-- The missing-fields coercion at the head of `_do_load` (schema.py line
593): `partial = self.partial if partial is None else bool(partial)` —
any non-`None` argument, a set of field names included, is collapsed to a
single boolean before the unmarshaller ever sees it. -/
def do_load_part (selfPart : PartArg) (arg : PartArg) : PartArg :=
  match arg with
  | .noneV => selfPart
  | .boolV b => .boolV (pyBool (.boolV b))
  | .setV s => .boolV (pyBool (.setV s))

/-- Modelled from the spec: whether "`partial` is true for that field" —
the spec lets the missing-fields argument be "a boolean for the whole
load or a set of field names" (the implementing `marshalling.py` is not
among this repository's source files). -/
def part_true_for_field (p : PartArg) (name : String) : Bool :=
  match p with
  | .noneV => false
  | .boolV b => b
  | .setV s => s.contains name

/-- Modelled from the spec: the required-field handling of the
unmarshaller (`marshalling.py` is not among this repository's source
files) — "a field absent from the input is treated as missing and skipped
rather than flagged required, when `partial` is true for that field". The
result lists the required fields reported missing. -/
def unmarshal_required_errors (required_fields input_keys : List String) (p : PartArg) :
    List String :=
  required_fields.filter (fun f => !input_keys.contains f && !part_true_for_field p f)

/-- The required-field errors one `load(data, partial=arg)` call reports:
the coercion performed by `_do_load` composed with the unmarshaller
model. -/
def load_required_errors (inst : SchemaInstance) (arg : PartArg)
    (required_fields input_keys : List String) : List String :=
  unmarshal_required_errors required_fields input_keys (do_load_part inst.part arg)

theorem lookup_updateWithValidators (d : Errors) (outs : List (Option Errors)) (k : String) :
    List.lookup k (updateWithValidators d outs)
      = optOr (lookupLast k (validatorGroupErrors outs)) (List.lookup k d) := by
  unfold updateWithValidators invoke_validators
  by_cases he : (validatorGroupErrors outs).isEmpty
  · have he' : validatorGroupErrors outs = [] := by simpa using he
    rw [he']
    simp [lookupLast, List.lookup, optOr]
  · rw [if_neg he]
    exact lookup_dictUpdate d _ k

/-! ## The claims -/

/-- The claim's own field-name rule, written as the spec words it: a
priority list — `fields` ∩ `only` when both are set, else `only`, else
`fields`, else declared ∪ `additional`, else declared — followed by one
subtraction of the union of the class-level and instance-level excludes. -/
def spec_field_names (inst : SchemaInstance) (opts : SchemaOpts)
    (declared_keys : List String) : Finset String :=
  (if inst.only ≠ [] ∧ opts.fields ≠ [] then
      opts.fields.toFinset ∩ inst.only.toFinset
    else if inst.only ≠ [] then inst.only.toFinset
    else if opts.fields ≠ [] then opts.fields.toFinset
    else if opts.additional ≠ [] then declared_keys.toFinset ∪ opts.additional.toFinset
    else declared_keys.toFinset)
    \ (opts.exclude.toFinset ∪ inst.exclude.toFinset)

theorem mem_update_field_names (inst : SchemaInstance) (opts : SchemaOpts)
    (declared_keys : List String) (x : String) :
    x ∈ update_field_names inst opts declared_keys ↔
      ((if inst.only ≠ [] then
          (if opts.fields ≠ [] then x ∈ opts.fields ∧ x ∈ inst.only else x ∈ inst.only)
        else if opts.fields ≠ [] then x ∈ opts.fields
        else if opts.additional ≠ [] then x ∈ declared_keys ∨ x ∈ opts.additional
        else x ∈ declared_keys)
        ∧ x ∉ opts.exclude ∧ x ∉ inst.exclude) := by
  have hexc : ∀ y : String,
      y ∈ osUnion (orderedSet opts.exclude) (orderedSet inst.exclude) ↔
        (y ∈ opts.exclude ∨ y ∈ inst.exclude) := fun y => by
    rw [mem_osUnion, mem_orderedSet, mem_orderedSet]
  have hbase : ∀ names : List String,
      (x ∈ (if osUnion (orderedSet opts.exclude) (orderedSet inst.exclude) ≠ [] then
              osDiff names (osUnion (orderedSet opts.exclude) (orderedSet inst.exclude))
            else names)) ↔
        (x ∈ names ∧ x ∉ opts.exclude ∧ x ∉ inst.exclude) := by
    intro names
    by_cases he : osUnion (orderedSet opts.exclude) (orderedSet inst.exclude) ≠ []
    · rw [if_pos he, mem_osDiff, hexc]
      tauto
    · rw [if_neg he]
      push_neg at he
      have hx : ¬(x ∈ opts.exclude ∨ x ∈ inst.exclude) := by
        rw [← hexc x, he]
        simp
      rw [not_or] at hx
      tauto
  have hsel : x ∈ (if inst.only ≠ [] then
        (if opts.fields ≠ [] then osInter (orderedSet opts.fields) (orderedSet inst.only)
         else orderedSet inst.only)
      else if opts.fields ≠ [] then orderedSet opts.fields
      else if opts.additional ≠ [] then
        osUnion (orderedSet declared_keys) (orderedSet opts.additional)
      else orderedSet declared_keys) ↔
      (if inst.only ≠ [] then
        (if opts.fields ≠ [] then x ∈ opts.fields ∧ x ∈ inst.only else x ∈ inst.only)
      else if opts.fields ≠ [] then x ∈ opts.fields
      else if opts.additional ≠ [] then x ∈ declared_keys ∨ x ∈ opts.additional
      else x ∈ declared_keys) := by
    by_cases h1 : inst.only ≠ [] <;> by_cases h2 : opts.fields ≠ [] <;>
      by_cases h3 : opts.additional ≠ [] <;>
      simp [h1, h2, h3, mem_osInter, mem_osUnion, mem_orderedSet]
  simp only [update_field_names]
  rw [hbase, hsel]

/-- C4: for every schema instance, the field-name set used for a dump/load
call follows the priority — `fields` ∩ `only` when both are set, else
`only`, else `fields`, else declared ∪ `additional`, else declared — and
the union of the class-level and instance-level exclude sets is then
subtracted: the name selection of `_update_fields` computes exactly the
spec's set. -/
theorem C4_field_name_selection (inst : SchemaInstance) (opts : SchemaOpts)
    (declared_keys : List String) :
    (update_field_names inst opts declared_keys).toFinset
      = spec_field_names inst opts declared_keys := by
  ext x
  rw [List.mem_toFinset, mem_update_field_names]
  simp only [spec_field_names, Finset.mem_sdiff, Finset.mem_union, Finset.mem_inter,
    List.mem_toFinset]
  by_cases h1 : inst.only ≠ [] <;> by_cases h2 : opts.fields ≠ [] <;>
    by_cases h3 : opts.additional ≠ [] <;> simp [h1, h2, h3, not_or]

/-- C5: a schema class definition that sets both the `fields` and the
`additional` Meta options to non-empty values fails at class-definition
time: `SchemaOpts.__init__`, invoked from `SchemaMeta.__new__` while the
class object is being created — before any instance, and hence any dump or
load call, can exist — raises the configuration `ValueError`. -/
theorem C5_fields_additional_conflict (meta : MetaOpts)
    (ancestors : List (List (String × FieldKind))) (cls_fields : List (String × FieldKind))
    (fs ad : List String) (hf : meta.fields = .seqO fs) (ha : meta.additional = .seqO ad)
    (hf0 : fs ≠ []) (ha0 : ad ≠ []) :
    schemaMetaNew meta ancestors cls_fields
      = Except.error "Cannot set both `fields` and `additional` options for the same Schema." := by
  unfold schemaMetaNew SchemaOpts.init
  rw [hf, ha]
  have hcond : fs ≠ [] ∧ ad ≠ [] := ⟨hf0, ha0⟩
  simp [hcond, Bind.bind, Except.bind, throw, throwThe, MonadExceptOf.throw]

/-- Witness for C5: a concrete Meta with `fields = ("a",)` and
`additional = ("b",)` fails class creation with the configuration error. -/
theorem C5_witness :
    schemaMetaNew ⟨.seqO ["a"], .seqO ["b"], .absentO, false, false, true, [], [], []⟩ [] []
      = Except.error "Cannot set both `fields` and `additional` options for the same Schema." :=
  C5_fields_additional_conflict _ [] [] ["a"] ["b"] rfl rfl (by simp) (by simp)

/-- C7: a field declared on a subclass under the same name as an inherited
field replaces the inherited declaration: with base-class declarations
`baseF` (collected first, via `mro[:0:-1]`) and subclass declarations
`ownF`, the resolved dictionary's key set is
(keys of `baseF` minus the overridden names) ∪ keys of `ownF`, and every
key resolves to the subclass's declaration when it has one, else to the
inherited one — the later, derived pairs win the dictionary collision. -/
theorem C7_subclass_overrides (baseF ownF : List (String × FieldKind)) :
    keysOf (get_declared_fields (get_fields_by_mro [baseF]) ownF)
        = (keysOf baseF \ keysOf ownF) ∪ keysOf ownF
      ∧ ∀ k : String,
          List.lookup k (get_declared_fields (get_fields_by_mro [baseF]) ownF)
            = optOr (lookupLast k ownF) (lookupLast k baseF) := by
  have hmro : get_fields_by_mro [baseF] = baseF := by
    simp [get_fields_by_mro]
  constructor
  · rw [hmro, get_declared_fields, keysOf_dictOfPairs, keysOf_append]
    exact Finset.sdiff_union_self_eq_union.symm
  · intro k
    rw [hmro, get_declared_fields, lookup_dictOfPairs]
    simp only [lookupLast, List.reverse_append]
    rw [lookup_append]

/-- C9: the effective strict mode of a schema instance is the disjunction
of the constructor's `strict` argument and the class-level `strict`
option; in particular `strict=False` at construction cannot disable a
class-level `strict=True`. -/
theorem C9_strict_disjunction (opts : SchemaOpts) (only exclude : List String)
    (strict many : Bool) (load_only dump_only : List String) (p : PartArg) :
    (baseSchemaInit opts only exclude strict many load_only dump_only p).strict
        = (strict || opts.strict)
      ∧ (opts.strict = true →
          (baseSchemaInit opts only exclude false many load_only dump_only p).strict = true) := by
  refine ⟨rfl, ?_⟩
  intro h
  simp [baseSchemaInit, h]

/-- Witness for C9 at a concrete configuration: class-level strict `True`,
constructor argument `False` — the instance is nonetheless strict. -/
theorem C9_witness :
    (baseSchemaInit ⟨[], [], [], true, false, true, [], [], []⟩ [] [] false false [] []
        .noneV).strict = true :=
  (C9_strict_disjunction ⟨[], [], [], true, false, true, [], [], []⟩ [] [] false false
    [] [] .noneV).2 rfl

/-- C1 counterexample: a batch schema-level validator and a non-batch
schema-level validator both report under key "k" (messages "a" and "b");
the aggregate of `_do_load` holds only the later source's list ["b"] —
`errors.update(err.messages)` replaced, rather than concatenated, the
earlier messages, so the claimed union ["a", "b"] is not what the load
reports. -/
theorem C1_counterexample :
    do_load_errors [] [some [("k", ["a"])]] [some [("k", ["b"])]] = [("k", ["b"])]
      ∧ List.lookup "k" (do_load_errors [] [some [("k", ["a"])]] [some [("k", ["b"])]])
          ≠ some ["a", "b"] := by
  refine ⟨rfl, ?_⟩
  decide

/-- C1 amended: the aggregate error map of a load unions the KEYS of the
error sources, but under a shared key the later source overwrites the
earlier messages (`dict.update` semantics): a key's final entry is the
last-reporting non-batch schema validator's messages if any, else the
last-reporting batch schema validator's, else the unmarshal/field-level
entry. -/
theorem C1_amended (unmarshalErrors : Errors)
    (batchOutcomes itemOutcomes : List (Option Errors)) (k : String) :
    List.lookup k (do_load_errors unmarshalErrors batchOutcomes itemOutcomes)
      = optOr (lookupLast k (validatorGroupErrors itemOutcomes))
          (optOr (lookupLast k (validatorGroupErrors batchOutcomes))
            (List.lookup k unmarshalErrors)) := by
  unfold do_load_errors
  rw [lookup_updateWithValidators, lookup_updateWithValidators]

/-- C2 counterexample: with one non-batch post-dump hook "n" and one batch
post-dump hook "b" registered, the recorded invocation order of
`_invoke_dump_processors` is `["n", "b"]` — the batch hook is NOT invoked
before the non-batch hook. -/
theorem C2_counterexample :
    invoke_dump_processors [traceHook "n"] [traceHook "b"] [] = ["n", "b"]
      ∧ ¬ List.indexOf "b" (invoke_dump_processors [traceHook "n"] [traceHook "b"] [])
          < List.indexOf "n" (invoke_dump_processors [traceHook "n"] [traceHook "b"] []) := by
  refine ⟨rfl, ?_⟩
  decide

/-- C2 amended: on the dump side ALL non-batch post-dump hooks run before
any batch post-dump hook (the mirror image of the claim, and of the load
side): instrumented hooks record exactly the non-batch registration order
followed by the batch registration order. -/
theorem C2_amended (nonbatchNames batchNames : List String) :
    invoke_dump_processors (nonbatchNames.map traceHook) (batchNames.map traceHook) []
      = nonbatchNames ++ batchNames := by
  unfold invoke_dump_processors
  rw [invoke_processors_trace, invoke_processors_trace]
  simp

/-- C3 counterexample: schema with required fields "name" and "age", empty
input, and `load(..., partial={"age"})`. The pipeline's `bool(partial)`
coercion makes the whole load partial, so NO required-field error is
reported — yet the claim's per-field semantics (second conjunct, the
uncoerced unmarshaller model) would still report "name", which is absent
and not in the set. -/
theorem C3_counterexample :
    load_required_errors
        (baseSchemaInit ⟨[], [], [], false, false, true, [], [], []⟩ [] [] false false [] []
          (.boolV false))
        (.setV ["age"]) ["name", "age"] [] = []
      ∧ unmarshal_required_errors ["name", "age"] [] (.setV ["age"]) = ["name"] := by
  exact ⟨rfl, rfl⟩

/-- C3 amended: the `partial` argument passed to `load` is collapsed to a
single boolean for the whole call before any per-field decision: an
explicit boolean skips all absent required fields iff it is `True`, and a
set behaves as its truthiness — a non-empty set skips ALL absent required
fields (not only the named ones) and an empty set skips none. -/
theorem C3_amended (inst : SchemaInstance) (required_fields input_keys : List String) :
    (∀ b : Bool, load_required_errors inst (.boolV b) required_fields input_keys
        = if b then [] else required_fields.filter (fun f => !input_keys.contains f))
      ∧ (∀ s : List String, load_required_errors inst (.setV s) required_fields input_keys
        = if s.isEmpty then required_fields.filter (fun f => !input_keys.contains f)
          else []) := by
  constructor
  · intro b
    cases b <;>
      simp [load_required_errors, do_load_part, pyBool, unmarshal_required_errors,
        part_true_for_field]
  · intro s
    by_cases hs : s.isEmpty <;>
      simp [load_required_errors, do_load_part, pyBool, unmarshal_required_errors,
        part_true_for_field, hs]

/-- C10 counterexample: resolving the field set against the EMPTY LIST
with `many=True` does not bypass the filtering: `[]` is falsy, so
`__filter_fields` never reaches its early `return self.declared_fields`;
with `only=("name",)` the resolved set is the filtered single-field
dictionary, not the full two-field declared mapping. -/
theorem C10_counterexample :
    update_fields
        (baseSchemaInit ⟨[], [], [], false, false, true, [], [], []⟩ ["name"] [] false true
          [] [] .noneV)
        ⟨[], [], [], false, false, true, [], [], []⟩
        [("name", .stringF), ("age", .integerF)] (.coll false none) true
      = Except.ok [("name", .stringF)]
      ∧ (Except.ok [("name", FieldKind.stringF)] :
            Except String (List (String × FieldKind)))
          ≠ Except.ok [("name", .stringF), ("age", .integerF)] := by
  refine ⟨rfl, ?_⟩
  intro h
  exact absurd (Except.ok.inj h) (by decide)

/-- C10 amended: the full-declared-fields bypass fires only when the
collection is TRUTHY yet yields no first item (an exhausted truthy
iterator, or an object whose indexing raises); a falsy collection — the
empty list — goes through the normal per-name filtering, with the falsy
representative making implicit names default to `fields.Field`. -/
theorem C10_amended (declared : List (String × FieldKind)) (field_names : List String) :
    filter_fields declared field_names (.coll true none) true = Except.ok declared
      ∧ filter_fields declared field_names (.coll false none) true
          = filterFieldsLoop declared (.coll false none) field_names [] := by
  exact ⟨rfl, rfl⟩

/-- C6: whenever the aggregate error map of a load is non-empty, the
overridable `handle_error` hook is invoked with the full error structure —
carrying the error map, the offending field names, the offending field
contracts, and the original input — together with the original input;
post-load hooks never run; in strict mode exactly that aggregate error is
raised and nothing is returned; in non-strict mode the `(result, errors)`
pair with the accumulated map is returned. -/
theorem C6_error_tail {D : Type} (inst : SchemaInstance) (postprocess : Bool)
    (u : Errors) (efn : List String) (efs : List FieldKind)
    (bo io : List (Option Errors)) (data result : D) (postLoad : D → D)
    (h : do_load_errors u bo io ≠ []) :
    (do_load inst postprocess u efn efs bo io data result postLoad).handled
        = some (⟨do_load_errors u bo io, efn, efs, data⟩, data)
      ∧ (do_load inst postprocess u efn efs bo io data result postLoad).post_load_ran = false
      ∧ (inst.strict = true →
          (do_load inst postprocess u efn efs bo io data result postLoad).raised
              = some ⟨do_load_errors u bo io, efn, efs, data⟩
            ∧ (do_load inst postprocess u efn efs bo io data result postLoad).returned
                = none)
      ∧ (inst.strict = false →
          (do_load inst postprocess u efn efs bo io data result postLoad).raised = none
            ∧ (do_load inst postprocess u efn efs bo io data result postLoad).returned
                = some (result, do_load_errors u bo io)) := by
  have hne : (do_load_errors u bo io).isEmpty = false := by
    cases hE : do_load_errors u bo io
    · exact absurd hE h
    · rfl
  cases hst : inst.strict <;>
    simp [do_load, do_load_finish, hne, hst]

/-- Witness for C6: a strict instance with one unmarshal error under
"email" — the post-load hooks do not run. -/
theorem C6_witness :
    (do_load
        (baseSchemaInit ⟨[], [], [], true, false, true, [], [], []⟩ [] [] false false [] []
          .noneV)
        true [("email", ["invalid"])] ["email"] [.stringF] [] [] (0 : Nat) 1 id).post_load_ran
      = false :=
  (C6_error_tail
    (baseSchemaInit ⟨[], [], [], true, false, true, [], [], []⟩ [] [] false false [] [] .noneV)
    true [("email", ["invalid"])] ["email"] [.stringF] [] [] 0 1 id
    (by decide)).2.1

/-- C8: name resolution for the field set. A declared name uses its
declared contract; a non-declared name against a falsy/absent object gets
the pass-through `fields.Field` default; against a truthy representative
whose attribute exists, the attribute's runtime type is mapped through the
static `TYPE_MAPPING` table (`fields.Field` for unmapped types); against a
truthy representative lacking the attribute, resolution fails with a
lookup error naming the missing field. The representative is the
collection's first item under `many=True` and the object itself
otherwise. -/
theorem C8_field_resolution (declared : List (String × FieldKind)) (obj : ObjArg)
    (key : String) (field_names : List String) (proto : PyObj) :
    (∀ f : FieldKind, List.lookup key declared = some f →
        resolveField declared obj key = Except.ok f)
      ∧ (List.lookup key declared = none → objTruthy obj = false →
          resolveField declared obj key = Except.ok .fieldF)
      ∧ (∀ ty : PyType, List.lookup key declared = none → objTruthy obj = true →
          objLookup obj key = some ty →
          resolveField declared obj key = Except.ok ((TYPE_MAPPING ty).getD .fieldF))
      ∧ (List.lookup key declared = none → objTruthy obj = true →
          objLookup obj key = none →
          resolveField declared obj key
            = Except.error ("\"" ++ key ++ "\" is not a valid field for the object."))
      ∧ filter_fields declared field_names (.coll true (some proto)) true
          = filterFieldsLoop declared (.single proto) field_names []
      ∧ filter_fields declared field_names obj false
          = filterFieldsLoop declared obj field_names [] := by
  refine ⟨?_, ?_, ?_, ?_, rfl, ?_⟩
  · intro f hf
    simp [resolveField, hf]
  · intro h1 h2
    simp [resolveField, h1, resolveImplicitField, h2]
  · intro ty h1 h2 h3
    simp [resolveField, h1, resolveImplicitField, h2, h3]
  · intro h1 h2 h3
    simp [resolveField, h1, resolveImplicitField, h2, h3]
  · simp [filter_fields, Bool.and_false]

/-- Witness for C8 at concrete inputs: a declared field keeps its
contract; an absent object defaults to `fields.Field`; an existing `int`
attribute maps to `fields.Integer` via the table; a missing attribute
fails with the error naming it; a non-empty collection resolves against
its first item. -/
theorem C8_witness :
    resolveField [("name", .stringF)] .noneO "name" = Except.ok .stringF
      ∧ resolveField [("name", .stringF)] .noneO "age" = Except.ok .fieldF
      ∧ resolveField [] (.single ⟨true, true, [("age", .intT)]⟩) "age"
          = Except.ok ((TYPE_MAPPING .intT).getD .fieldF)
      ∧ resolveField [] (.single ⟨true, true, []⟩) "age"
          = Except.error ("\"" ++ "age" ++ "\" is not a valid field for the object.")
      ∧ filter_fields [] ["x"] (.coll true (some ⟨true, false, [("x", .floatT)]⟩)) true
          = filterFieldsLoop [] (.single ⟨true, false, [("x", .floatT)]⟩) ["x"] [] :=
  ⟨(C8_field_resolution [("name", .stringF)] .noneO "name" [] ⟨true, true, []⟩).1 .stringF rfl,
   (C8_field_resolution [("name", .stringF)] .noneO "age" [] ⟨true, true, []⟩).2.1 rfl rfl,
   (C8_field_resolution [] (.single ⟨true, true, [("age", .intT)]⟩) "age" []
      ⟨true, true, []⟩).2.2.1 .intT rfl rfl rfl,
   (C8_field_resolution [] (.single ⟨true, true, []⟩) "age" [] ⟨true, true, []⟩).2.2.2.1
      rfl rfl rfl,
   (C8_field_resolution [] .noneO "x" ["x"] ⟨true, false, [("x", .floatT)]⟩).2.2.2.2.1⟩
